import Mathlib

/-!
# hack/tools/metadataupdate

A shallow embedding of `hack/tools/metadataupdate/main.go`, the tool that adds a
release series to `metadata.yaml` when a minor release is tagged, and the
properties of its tag parser and of its update step.

Conventions of the embedding:

* Go's `int` is the 64-bit two's-complement integer (`GoInt`); `+` wraps.
* A Go string is embedded as a Lean `String`. The tag pattern only accepts ASCII
  characters, so the difference between bytes and code points plays no role.
* Go functions with several results return a tuple, the `error` result being an
  `Option GoError` (`none` is `nil`).
* The operating system and the YAML library are the fields of `Sys`; `main` is a
  function of the values it reads (environment variable, flags) and of a `Sys`,
  and returns how the process ends together with the calls of `readMetadata` and
  `writeMetadata` it made, in order. The embedding starts when `flag.Parse` has
  returned; the lines written by `log.Printf` are left out.
* Two runs in a row are linked by `Sys.afterRun`: the file holds what the last
  successful `os.WriteFile` stored in it.
-/

namespace MetadataUpdate

/-! ## Go integers -/

/-- Smallest value of Go's `int` on a 64-bit platform. -/
def minInt : Int := -(2 ^ 63)

/-- Largest value of Go's `int` on a 64-bit platform. -/
def maxInt : Int := 2 ^ 63 - 1

/-- Go's `int`: an integer between `minInt` and `maxInt`. -/
def GoInt : Type := { i : Int // minInt ≤ i ∧ i ≤ maxInt }

instance : DecidableEq GoInt := fun a b =>
  if h : a.val = b.val then isTrue (Subtype.ext h) else isFalse (fun e => h (congrArg Subtype.val e))

/-- Two's-complement reduction of an integer to the range of `int`. -/
def wrapInt (i : Int) : Int := (i + 2 ^ 63) % 2 ^ 64 - 2 ^ 63

/-- The `int` an integer denotes after wrap-around. -/
def GoInt.ofInt (i : Int) : GoInt :=
  ⟨wrapInt i, by
    unfold wrapInt minInt maxInt
    have h1 : (0 : Int) ≤ (i + 2 ^ 63) % 2 ^ 64 := Int.emod_nonneg _ (by norm_num)
    have h2 : (i + 2 ^ 63) % 2 ^ 64 < (2 : Int) ^ 64 := Int.emod_lt_of_pos _ (by norm_num)
    constructor <;> omega⟩

/-- Go's `+` on `int`: the sum, wrapped around on overflow. -/
def GoInt.add (a b : GoInt) : GoInt := GoInt.ofInt (a.val + b.val)

instance : Add GoInt := ⟨GoInt.add⟩

instance (n : Nat) : OfNat GoInt n := ⟨GoInt.ofInt n⟩

instance : Inhabited GoInt := ⟨0⟩

/-! ## Data model -/

/-- A Go `error` value, identified with its message. -/
abbrev GoError : Type := String

/-- Go `type ReleaseSeries struct`. -/
structure ReleaseSeries where
  Major : GoInt
  Minor : GoInt
  Contract : String
deriving DecidableEq

/-- Go `type Metadata struct`. -/
structure Metadata where
  APIVersion : String
  ReleaseSeries : List ReleaseSeries
deriving DecidableEq

/-- The zero value of `Metadata` (`var metadata Metadata`). -/
def Metadata.zero : Metadata := { APIVersion := "", ReleaseSeries := [] }

/-! ## The tag parser -/

/-- The strings `\d+` ranges over: non-empty runs of the ASCII digits `0` to `9`. -/
def isDigits (s : List Char) : Prop := s ≠ [] ∧ ∀ c ∈ s, c.isDigit = true

instance (s : List Char) : Decidable (isDigits s) := by
  unfold isDigits; infer_instance

/-- Result of `re.FindStringSubmatch(tag)` for `re = ^v(\d+)\.(\d+)\.(\d+)$`: the whole match
followed by the three groups, or the empty (nil) slice when `tag` does not match.
Each `\d+` is greedy and is followed by a character that is not a digit, so it
takes the longest run of digits. Without the `m` flag `$` is the end of the text. -/
def findStringSubmatch (tag : String) : List String :=
  match tag.data with
  | [] => []
  | c :: r0 =>
    if c ≠ 'v' then [] else
    let g1 := r0.takeWhile Char.isDigit
    if g1 = [] then [] else
    match r0.dropWhile Char.isDigit with
    | [] => []
    | c1 :: r1 =>
      if c1 ≠ '.' then [] else
      let g2 := r1.takeWhile Char.isDigit
      if g2 = [] then [] else
      match r1.dropWhile Char.isDigit with
      | [] => []
      | c2 :: r2 =>
        if c2 ≠ '.' then [] else
        let g3 := r2.takeWhile Char.isDigit
        if g3 = [] then [] else
        if r2.dropWhile Char.isDigit ≠ [] then [] else
        [tag, String.mk g1, String.mk g2, String.mk g3]

/-- Value of a run of digits read in base 10, most significant digit first, the way
`strconv` accumulates it (`n = n*10 + int(ch - '0')`). -/
def decimalValue (s : List Char) : Nat :=
  s.foldl (fun n ch => n * 10 + (ch.toNat - '0'.toNat)) 0

/-- Model of `strconv.Atoi` (Go standard library) for a 64-bit `int`: an optional sign followed
by a non-empty run of decimal digits; `none` stands for a non-nil error, which is
returned on a syntax error and when the value is out of the range of `int`. -/
def atoi (s : String) : Option GoInt :=
  match s.data with
  | [] => none
  | c :: r =>
    let neg : Bool := decide (c = '-')
    let ds : List Char := if c = '-' ∨ c = '+' then r else c :: r
    if ¬ isDigits ds then none
    else
      let v : Int := if neg then -(decimalValue ds : Int) else (decimalValue ds : Int)
      if h : minInt ≤ v ∧ v ≤ maxInt then some ⟨v, h⟩ else none

/-- Go `func parseTag(tag string) (int, int, bool, error)`. -/
def parseTag (tag : String) : GoInt × GoInt × Bool × Option GoError :=
  let matched := findStringSubmatch tag
  if matched.length ≠ 4 then
    (0, 0, false, some ("invalid tag format: " ++ tag))
  else
    match atoi (matched.getD 1 "") with
    | none => (0, 0, false, some ("invalid major version: " ++ matched.getD 1 ""))
    | some major =>
      match atoi (matched.getD 2 "") with
      | none => (0, 0, false, some ("invalid minor version: " ++ matched.getD 2 ""))
      | some minor =>
        match atoi (matched.getD 3 "") with
        | none => (0, 0, false, some ("invalid patch version: " ++ matched.getD 3 ""))
        | some patch =>
          let isPatch : Bool := decide (patch.val > 0)
          (major, minor, isPatch, none)

/-! ## The metadata file -/

/-- The calls into the operating system and into the libraries that the tool makes;
each field gives the outcome of the call. -/
structure Sys where
  /-- Outcome of `os.ReadFile(path)`: the content, or the error. -/
  readFile : String → Except GoError String
  /-- Outcome of `yaml.Unmarshal(data, &metadata)` on a zero `Metadata`: what `metadata` holds
  afterwards, and the error. -/
  unmarshal : String → Metadata × Option GoError
  /-- Outcome of `encoder.Encode(metadata)` with an indent of 2: the text sent to the builder, or
  the error. -/
  encode : Metadata → Except GoError String
  /-- Outcome of `os.WriteFile(path, data, 0644)`: the error. -/
  writeFile : String → String → Option GoError
  /-- Result of `filepath.Join(dir, name)`. -/
  join : String → String → String

/-- Go `func readMetadata(path string) (Metadata, error)`. -/
def readMetadata (sys : Sys) (path : String) : Metadata × Option GoError :=
  match sys.readFile path with
  | .error err => (Metadata.zero, some err)
  | .ok data =>
    match sys.unmarshal data with
    | (metadata, some err) => (metadata, some err)
    | (metadata, none) => (metadata, none)

/-- Go `func writeMetadata(path string, metadata Metadata) error`. The deferred
`encoder.Close()` runs once the result of `os.WriteFile` is known and its own result is
dropped. -/
def writeMetadata (sys : Sys) (path : String) (metadata : Metadata) : Option GoError :=
  match sys.encode metadata with
  | .error err => some err
  | .ok sb => sys.writeFile path sb

/-! ## The program -/

/-- How the process ends: `success` is a return from `main` (exit code 0), `failure`
is `log.Fatal`, which prints the message and exits with code 1. -/
inductive Exit where
  | success
  | failure (msg : String)
deriving DecidableEq

/-- A call that `main` makes on the metadata file. -/
inductive FileOp where
  | read (path : String)
  | write (path : String) (metadata : Metadata)
deriving DecidableEq

/-- A run of the program: how it ends and the calls it made on the file, in order. -/
structure Run where
  status : Exit
  ops : List FileOp
deriving DecidableEq

/-- The loop of `main` over `metadata.ReleaseSeries`: `true` when it returns early
because an entry has the major and minor of `newRelease`. -/
def releaseExists (newRelease : ReleaseSeries) : List ReleaseSeries → Bool
  | [] => false
  | release :: rest =>
    if release.Major = newRelease.Major ∧ release.Minor = newRelease.Minor then true
    else releaseExists newRelease rest

/-- Go `func main()`, as a function of `tag = os.Getenv("GITHUB_REF_NAME")` and of the
values of the flags `-contract` and `-repo-dir`. -/
def main (tag contractFlag repoDir : String) (sys : Sys) : Run :=
  if tag = "" then
    { status := .failure "GITHUB_REF_NAME environment variable not set", ops := [] }
  else
    match parseTag tag with
    | (_, _, _, some err) => { status := .failure err, ops := [] }
    | (major, minor, isPatch, none) =>
      if isPatch then { status := .success, ops := [] }
      else
        let metadataPath := sys.join repoDir "metadata.yaml"
        match readMetadata sys metadataPath with
        | (_, some err) =>
          { status := .failure ("Failed to read metadata file: " ++ err),
            ops := [.read metadataPath] }
        | (metadata, none) =>
          let newRelease : ReleaseSeries :=
            { Major := major, Minor := minor + 1, Contract := contractFlag }
          if releaseExists newRelease metadata.ReleaseSeries then
            { status := .success, ops := [.read metadataPath] }
          else
            let metadata : Metadata :=
              { metadata with ReleaseSeries := metadata.ReleaseSeries ++ [newRelease] }
            match writeMetadata sys metadataPath metadata with
            | some err =>
              { status := .failure ("Failed to write metadata file: " ++ err),
                ops := [.read metadataPath, .write metadataPath metadata] }
            | none =>
              { status := .success,
                ops := [.read metadataPath, .write metadataPath metadata] }

/-! ## Notions used to state the properties -/

/-- Base-10 value of a string of digits: the digits, least significant first, are the
base-10 expansion of the value. -/
def base10Value (s : String) : Nat :=
  Nat.ofDigits 10 (s.data.reverse.map (fun ch => ch.toNat - 48))

/-- The document last handed to `writeMetadata` in a sequence of calls, if any. -/
def lastWritten : List FileOp → Option Metadata
  | [] => none
  | .read _ :: rest => lastWritten rest
  | .write _ metadata :: rest => some ((lastWritten rest).getD metadata)

/-- The document that the metadata file holds after a successful run that loaded
`loaded` from it: the document the run saved, or `loaded` when it saved nothing. -/
def Run.resultDoc (r : Run) (loaded : Metadata) : Metadata :=
  (lastWritten r.ops).getD loaded

/-- Number of entries of a document with the given major and minor. -/
def keyCount (major minor : Int) (d : Metadata) : Nat :=
  d.ReleaseSeries.countP (fun e => decide (e.Major.val = major ∧ e.Minor.val = minor))

/-- A system whose metadata file yields `stored` when it is loaded and whose writes
end with `writeErr`; `readErr` is the outcome of reading the file. Paths are joined
with a `/`, which is what `filepath.Join` does on a clean directory such as `/repo`. -/
def Sys.ofFile (readErr : Option GoError) (stored : Metadata × Option GoError)
    (writeErr : Option GoError) : Sys :=
  { readFile := fun _ => match readErr with
      | some err => .error err
      | none => .ok ""
    unmarshal := fun _ => stored
    encode := fun _ => .ok ""
    writeFile := fun _ _ => writeErr
    join := fun dir name => dir ++ "/" ++ name }

/-- No two entries of the document have the same (major, minor) pair: the list of the
pairs of its entries, in order, has no repetition. -/
def uniqueKeys (d : Metadata) : Prop :=
  (d.ReleaseSeries.map (fun e => (e.Major.val, e.Minor.val))).Nodup

instance (d : Metadata) : Decidable (uniqueKeys d) := by
  unfold uniqueKeys; infer_instance

/-- The message `msg` contains the string `s` verbatim: the characters of `s` occur
in `msg` one after the other. -/
def containsString (msg s : String) : Prop := s.data <:+: msg.data

instance (msg s : String) : Decidable (containsString msg s) := by
  unfold containsString; infer_instance

/-- The system that a later run meets once `writeMetadata sys path metadata` has been
called: when the document was encoded and `os.WriteFile` returned no error, the file
at `path` holds the text written, so `os.ReadFile` of that path returns it; every other
call is as before. Nothing else touches the file between two runs. When the save
fails the content of the file is not fixed by the program and the system is kept;
no property below is about that case. -/
def Sys.afterWrite (sys : Sys) (path : String) (metadata : Metadata) : Sys :=
  match sys.encode metadata with
  | .error _ => sys
  | .ok sb =>
    match sys.writeFile path sb with
    | some _ => sys
    | none =>
      { readFile := fun p => if p = path then .ok sb else sys.readFile p
        unmarshal := sys.unmarshal
        encode := sys.encode
        writeFile := sys.writeFile
        join := sys.join }

/-- The system that the next run meets after a run: the calls of `writeMetadata` of
the run have taken effect, in order. -/
def Sys.afterRun (sys : Sys) (r : Run) : Sys :=
  r.ops.foldl
    (fun s op =>
      match op with
      | .read _ => s
      | .write path metadata => s.afterWrite path metadata)
    sys

/-- A system whose metadata file holds at first a text that the YAML decoder turns
into `start`, whose encoder produces a second text for every document it is given, and
whose decoder answers `reload` on that second text; writes succeed. -/
def Sys.scenario (start : Metadata) (reload : Metadata × Option GoError) : Sys :=
  { readFile := fun _ => .ok "start"
    unmarshal := fun data => if data = "start" then (start, none) else reload
    encode := fun _ => .ok "saved"
    writeFile := fun _ _ => none
    join := fun dir name => dir ++ "/" ++ name }

/-! ## Lemmas on the tag pattern -/

theorem takeWhile_isDigit_append (a : List Char) (c : Char) (r : List Char)
    (ha : ∀ x ∈ a, x.isDigit = true) (hc : c.isDigit = false) :
    (a ++ c :: r).takeWhile Char.isDigit = a ∧
      (a ++ c :: r).dropWhile Char.isDigit = c :: r := by
  induction a with
  | nil => simp [List.takeWhile, List.dropWhile, hc]
  | cons x xs ih =>
    have hx : x.isDigit = true := ha x (by simp)
    have h := ih (fun y hy => ha y (by simp [hy]))
    simp [List.takeWhile, List.dropWhile, hx, h.1, h.2]

theorem takeWhile_isDigit_all (a : List Char) (ha : ∀ x ∈ a, x.isDigit = true) :
    a.takeWhile Char.isDigit = a ∧ a.dropWhile Char.isDigit = [] := by
  induction a with
  | nil => simp
  | cons x xs ih =>
    have hx : x.isDigit = true := ha x (by simp)
    have h := ih (fun y hy => ha y (by simp [hy]))
    simp [List.takeWhile, List.dropWhile, hx, h.1, h.2]

theorem isDigits_takeWhile (r : List Char) (h : r.takeWhile Char.isDigit ≠ []) :
    isDigits (r.takeWhile Char.isDigit) :=
  ⟨h, fun _ hc => List.mem_takeWhile_imp hc⟩

/-- On a tag of the shape `v<digits>.<digits>.<digits>` the pattern matches and the
groups are the three runs of digits. -/
theorem findStringSubmatch_wellFormed (a b c : List Char)
    (ha : isDigits a) (hb : isDigits b) (hc : isDigits c) :
    findStringSubmatch (String.mk ('v' :: (a ++ '.' :: (b ++ '.' :: c)))) =
      [String.mk ('v' :: (a ++ '.' :: (b ++ '.' :: c))), String.mk a, String.mk b,
        String.mk c] := by
  have h1 := takeWhile_isDigit_append a '.' (b ++ '.' :: c) ha.2 (by decide)
  have h2 := takeWhile_isDigit_append b '.' c hb.2 (by decide)
  have h3 := takeWhile_isDigit_all c hc.2
  simp only [findStringSubmatch, h1.1, h1.2, h2.1, h2.2, h3.1, h3.2]
  simp [ha.1, hb.1, hc.1]

/-- The pattern matches nothing but the tags of the shape `v<digits>.<digits>.<digits>`. -/
theorem findStringSubmatch_shape (tag : String) :
    findStringSubmatch tag = [] ∨
      ∃ a b c : List Char, isDigits a ∧ isDigits b ∧ isDigits c ∧
        tag.data = 'v' :: (a ++ '.' :: (b ++ '.' :: c)) ∧
        findStringSubmatch tag = [tag, String.mk a, String.mk b, String.mk c] := by
  unfold findStringSubmatch
  split
  · exact Or.inl rfl
  · rename_i c r0 hdata
    by_cases hv : c = 'v'
    swap
    · simp [hv]
    by_cases hg1 : r0.takeWhile Char.isDigit = []
    · simp [hg1]
    simp only [hv, hg1, ne_eq, not_true_eq_false, if_false]
    split
    · exact Or.inl rfl
    · rename_i c1 r1 hr0
      by_cases hc1 : c1 = '.'
      swap
      · simp [hc1]
      by_cases hg2 : r1.takeWhile Char.isDigit = []
      · simp [hg2]
      simp only [hc1, hg2, not_true_eq_false, if_false]
      split
      · exact Or.inl rfl
      · rename_i c2 r2 hr1
        by_cases hc2 : c2 = '.'
        swap
        · simp [hc2]
        by_cases hg3 : r2.takeWhile Char.isDigit = []
        · simp [hg3]
        by_cases hend : r2.dropWhile Char.isDigit = []
        swap
        · simp [hend]
        simp only [hc2, hg3, hend, not_true_eq_false, if_false]
        refine Or.inr ⟨_, _, _, isDigits_takeWhile _ hg1, isDigits_takeWhile _ hg2,
          isDigits_takeWhile _ hg3, ?_, rfl⟩
        have e0 := List.takeWhile_append_dropWhile Char.isDigit r0
        have e1 := List.takeWhile_append_dropWhile Char.isDigit r1
        have e2 := List.takeWhile_append_dropWhile Char.isDigit r2
        rw [hend, List.append_nil] at e2
        rw [hr1, hc2] at e1
        rw [hr0, hc1] at e0
        rw [hdata, hv, e2, e1, e0]

/-! ## Lemmas on the conversion of the components -/

theorem decimalValue_append_singleton (s : List Char) (ch : Char) :
    decimalValue (s ++ [ch]) = decimalValue s * 10 + (ch.toNat - 48) := by
  simp [decimalValue, List.foldl_append]

/-- The value that `strconv` accumulates is the base-10 value of the digits. -/
theorem decimalValue_eq_base10Value (s : List Char) :
    decimalValue s = base10Value (String.mk s) := by
  induction s using List.reverseRecOn with
  | nil => simp [decimalValue, base10Value]
  | append_singleton xs x ih =>
    rw [decimalValue_append_singleton, ih]
    simp [base10Value, Nat.ofDigits_cons]
    ring

theorem isDigits_head_not_sign (c : Char) (r : List Char) (h : isDigits (c :: r)) :
    c ≠ '-' ∧ c ≠ '+' := by
  have hc : c.isDigit = true := h.2 c (by simp)
  constructor <;> (intro e; rw [e] at hc; exact absurd hc (by decide))

/-- On a run of digits whose value fits `int`, `Atoi` returns the value. -/
theorem atoi_digits_inRange (a : List Char) (ha : isDigits a)
    (h : (decimalValue a : Int) ≤ maxInt) :
    ∃ g : GoInt, atoi (String.mk a) = some g ∧ g.val = (decimalValue a : Int) := by
  cases a with
  | nil => exact absurd rfl ha.1
  | cons c r =>
    obtain ⟨h1, h2⟩ := isDigits_head_not_sign c r ha
    have hr : minInt ≤ (decimalValue (c :: r) : Int) ∧ (decimalValue (c :: r) : Int) ≤ maxInt :=
      ⟨by unfold minInt; omega, h⟩
    refine ⟨⟨(decimalValue (c :: r) : Int), hr⟩, ?_, rfl⟩
    simp [atoi, h1, h2, ha, hr]

/-- On a run of digits whose value does not fit `int`, `Atoi` returns an error. -/
theorem atoi_digits_outOfRange (a : List Char) (ha : isDigits a)
    (h : ¬ (decimalValue a : Int) ≤ maxInt) : atoi (String.mk a) = none := by
  cases a with
  | nil => exact absurd rfl ha.1
  | cons c r =>
    obtain ⟨h1, h2⟩ := isDigits_head_not_sign c r ha
    simp [atoi, h1, h2, ha, h]

/-- What `parseTag` returns on a tag of the shape `v<digits>.<digits>.<digits>`: the
error is nil exactly when the three values fit `int`; then the results are the values
of the first two components and whether the third is positive; otherwise the results
are `0, 0, false`. -/
theorem parseTag_wellFormed (a b c : List Char)
    (ha : isDigits a) (hb : isDigits b) (hc : isDigits c) :
    ((parseTag (String.mk ('v' :: (a ++ '.' :: (b ++ '.' :: c))))).2.2.2 = none ↔
        (decimalValue a : Int) ≤ maxInt ∧ (decimalValue b : Int) ≤ maxInt ∧
          (decimalValue c : Int) ≤ maxInt) ∧
      ((parseTag (String.mk ('v' :: (a ++ '.' :: (b ++ '.' :: c))))).2.2.2 = none →
        (parseTag (String.mk ('v' :: (a ++ '.' :: (b ++ '.' :: c))))).1.val = decimalValue a ∧
        (parseTag (String.mk ('v' :: (a ++ '.' :: (b ++ '.' :: c))))).2.1.val = decimalValue b ∧
        (parseTag (String.mk ('v' :: (a ++ '.' :: (b ++ '.' :: c))))).2.2.1 =
          decide (0 < decimalValue c)) ∧
      ((parseTag (String.mk ('v' :: (a ++ '.' :: (b ++ '.' :: c))))).2.2.2 ≠ none →
        (parseTag (String.mk ('v' :: (a ++ '.' :: (b ++ '.' :: c))))).1 = 0 ∧
        (parseTag (String.mk ('v' :: (a ++ '.' :: (b ++ '.' :: c))))).2.1 = 0 ∧
        (parseTag (String.mk ('v' :: (a ++ '.' :: (b ++ '.' :: c))))).2.2.1 = false) := by
  have hm := findStringSubmatch_wellFormed a b c ha hb hc
  by_cases h1 : (decimalValue a : Int) ≤ maxInt
  swap
  · simp [parseTag, hm, atoi_digits_outOfRange a ha h1, h1]
  obtain ⟨g1, e1, v1⟩ := atoi_digits_inRange a ha h1
  by_cases h2 : (decimalValue b : Int) ≤ maxInt
  swap
  · simp [parseTag, hm, e1, atoi_digits_outOfRange b hb h2, h2]
  obtain ⟨g2, e2, v2⟩ := atoi_digits_inRange b hb h2
  by_cases h3 : (decimalValue c : Int) ≤ maxInt
  swap
  · simp [parseTag, hm, e1, e2, atoi_digits_outOfRange c hc h3, h3]
  obtain ⟨g3, e3, v3⟩ := atoi_digits_inRange c hc h3
  simp [parseTag, hm, e1, e2, e3, h1, h2, h3, v1, v2, v3]

/-! ## Properties of `parseTag` -/

theorem tag_eq_mk (MAJOR MINOR PATCH : String) :
    "v" ++ MAJOR ++ "." ++ MINOR ++ "." ++ PATCH =
      String.mk ('v' :: (MAJOR.data ++ '.' :: (MINOR.data ++ '.' :: PATCH.data))) := by
  apply String.ext
  simp [String.data_append]

/-- A nil error of `parseTag` means that the pattern matched. -/
theorem parseTag_ok_matched (tag : String) (hok : (parseTag tag).2.2.2 = none) :
    ∃ a b c : List Char, isDigits a ∧ isDigits b ∧ isDigits c ∧
      tag.data = 'v' :: (a ++ '.' :: (b ++ '.' :: c)) := by
  rcases findStringSubmatch_shape tag with h | ⟨a, b, c, ha, hb, hc, ht, -⟩
  · simp [parseTag, h] at hok
  · exact ⟨a, b, c, ha, hb, hc, ht⟩

/-- C4 (amended): on a tag `"v" ++ MAJOR ++ "." ++ MINOR ++ ".0"` whose MAJOR and MINOR
are non-empty strings of decimal digits with values of at most `maxInt = 2^63 - 1`,
`parseTag` returns a nil error, major = the base-10 value of MAJOR, minor = the base-10
value of MINOR and isPatch = false. -/
theorem parseTag_minorRelease (MAJOR MINOR : String)
    (hM : isDigits MAJOR.data) (hm : isDigits MINOR.data)
    (hMr : (base10Value MAJOR : Int) ≤ maxInt) (hmr : (base10Value MINOR : Int) ≤ maxInt) :
    (parseTag ("v" ++ MAJOR ++ "." ++ MINOR ++ ".0")).2.2.2 = none ∧
      (parseTag ("v" ++ MAJOR ++ "." ++ MINOR ++ ".0")).1.val = base10Value MAJOR ∧
      (parseTag ("v" ++ MAJOR ++ "." ++ MINOR ++ ".0")).2.1.val = base10Value MINOR ∧
      (parseTag ("v" ++ MAJOR ++ "." ++ MINOR ++ ".0")).2.2.1 = false := by
  have h0 : isDigits "0".data := by decide
  have eM : decimalValue MAJOR.data = base10Value MAJOR := decimalValue_eq_base10Value _
  have em : decimalValue MINOR.data = base10Value MINOR := decimalValue_eq_base10Value _
  obtain ⟨hiff, hval, -⟩ := parseTag_wellFormed MAJOR.data MINOR.data "0".data hM hm h0
  have etag : "v" ++ MAJOR ++ "." ++ MINOR ++ "." ++ "0" = "v" ++ MAJOR ++ "." ++ MINOR ++ ".0" := by
    apply String.ext
    simp [String.data_append]
  rw [← tag_eq_mk, etag] at hiff hval
  have hok := hiff.2 ⟨by rw [eM]; exact hMr, by rw [em]; exact hmr, by decide⟩
  obtain ⟨v1, v2, v3⟩ := hval hok
  refine ⟨hok, by rw [v1, eM], by rw [v2, em], ?_⟩
  rw [v3]
  decide

/-- When `parseTag` returns a nil error on a tag, the tag has a third component, and
the returned isPatch is true if and only if the base-10 value of that component is
greater than zero. -/
theorem parseTag_isPatch_iff (tag : String) (hok : (parseTag tag).2.2.2 = none) :
    (∃ a b c : List Char, isDigits a ∧ isDigits b ∧ isDigits c ∧
        tag.data = 'v' :: (a ++ '.' :: (b ++ '.' :: c))) ∧
      ∀ a b c : List Char, isDigits a → isDigits b → isDigits c →
        tag.data = 'v' :: (a ++ '.' :: (b ++ '.' :: c)) →
        ((parseTag tag).2.2.1 = true ↔ 0 < base10Value (String.mk c)) := by
  refine ⟨parseTag_ok_matched tag hok, ?_⟩
  intro a b c ha hb hc ht
  have htag : tag = String.mk ('v' :: (a ++ '.' :: (b ++ '.' :: c))) := String.ext ht
  obtain ⟨-, hval, -⟩ := parseTag_wellFormed a b c ha hb hc
  rw [← htag] at hval
  obtain ⟨-, -, v3⟩ := hval hok
  rw [v3, ← decimalValue_eq_base10Value]
  simp

/-- C6: if `parseTag` returns a nil error on a string, the string is the character `v`
followed by three non-empty runs of ASCII digits separated by single `.` characters,
with nothing before the `v` and nothing after the last digit. -/
theorem parseTag_ok_shape (s : String) (hok : (parseTag s).2.2.2 = none) :
    ∃ a b c : List Char, isDigits a ∧ isDigits b ∧ isDigits c ∧
      s.data = ['v'] ++ a ++ ['.'] ++ b ++ ['.'] ++ c := by
  obtain ⟨a, b, c, ha, hb, hc, ht⟩ := parseTag_ok_matched s hok
  exact ⟨a, b, c, ha, hb, hc, by simp [ht]⟩

/-- C10: whenever `parseTag` returns a non-nil error, its other results are major = 0,
minor = 0 and isPatch = false. -/
theorem parseTag_error_zero (tag : String) (herr : (parseTag tag).2.2.2 ≠ none) :
    (parseTag tag).1 = 0 ∧ (parseTag tag).2.1 = 0 ∧ (parseTag tag).2.2.1 = false := by
  revert herr
  simp only [parseTag]
  by_cases hl : (findStringSubmatch tag).length ≠ 4
  · rw [if_pos hl]
    exact fun _ => ⟨rfl, rfl, rfl⟩
  · rw [if_neg hl]
    cases atoi ((findStringSubmatch tag).getD 1 "") with
    | none => exact fun _ => ⟨rfl, rfl, rfl⟩
    | some major =>
      cases atoi ((findStringSubmatch tag).getD 2 "") with
      | none => exact fun _ => ⟨rfl, rfl, rfl⟩
      | some minor =>
        cases atoi ((findStringSubmatch tag).getD 3 "") with
        | none => exact fun _ => ⟨rfl, rfl, rfl⟩
        | some patch => exact fun herr => absurd rfl herr

/-- Witness of C4 (amended): the tag `v12.034.0`. -/
theorem parseTag_minorRelease_witness :
    (isDigits "12".data ∧ isDigits "034".data ∧ (base10Value "12" : Int) ≤ maxInt ∧
      (base10Value "034" : Int) ≤ maxInt) ∧
    ((parseTag ("v" ++ "12" ++ "." ++ "034" ++ ".0")).2.2.2 = none ∧
      (parseTag ("v" ++ "12" ++ "." ++ "034" ++ ".0")).1.val = base10Value "12" ∧
      (parseTag ("v" ++ "12" ++ "." ++ "034" ++ ".0")).2.1.val = base10Value "034" ∧
      (parseTag ("v" ++ "12" ++ "." ++ "034" ++ ".0")).2.2.1 = false) :=
  ⟨by decide, parseTag_minorRelease "12" "034" (by decide) (by decide) (by decide) (by decide)⟩

/-- Counterexample to C4 as stated: MAJOR = `99999999999999999999` and MINOR = `0` are
non-empty strings of decimal digits, and `parseTag` returns an error on
`v99999999999999999999.0.0`, the value of MAJOR being larger than `maxInt`. -/
theorem parseTag_minorRelease_counterexample :
    isDigits "99999999999999999999".data ∧ isDigits "0".data ∧
      maxInt < (base10Value "99999999999999999999" : Int) ∧
      parseTag ("v" ++ "99999999999999999999" ++ "." ++ "0" ++ ".0") =
        (0, 0, false, some "invalid major version: 99999999999999999999") := by
  decide

/-- Witness of C6: the tag `v1.2.3`. -/
theorem parseTag_ok_shape_witness :
    (parseTag "v1.2.3").2.2.2 = none ∧
      ∃ a b c : List Char, isDigits a ∧ isDigits b ∧ isDigits c ∧
        "v1.2.3".data = ['v'] ++ a ++ ['.'] ++ b ++ ['.'] ++ c :=
  ⟨by decide, parseTag_ok_shape "v1.2.3" (by decide)⟩

/-- The malformed strings named with C6 make `parseTag` return an error: a missing
`v`, a missing component, components that are not digits, a suffix, a trailing newline,
a leading blank, an empty string. -/
theorem parseTag_rejects_examples :
    (parseTag "1.2.3").2.2.2 = some "invalid tag format: 1.2.3" ∧
      (parseTag "v1.2").2.2.2 = some "invalid tag format: v1.2" ∧
      (parseTag "vX.Y.Z").2.2.2 = some "invalid tag format: vX.Y.Z" ∧
      (parseTag "v1.2.3-rc1").2.2.2 = some "invalid tag format: v1.2.3-rc1" ∧
      (parseTag "v1.2.3\n").2.2.2 ≠ none ∧
      (parseTag " v1.2.3").2.2.2 ≠ none ∧
      (parseTag "").2.2.2 ≠ none := by
  decide

/-- Witness of C10: on `v1.99999999999999999999.0` the major component parses, the
minor one does not fit `int`, and the results are `0, 0, false`. -/
theorem parseTag_error_zero_witness :
    (parseTag "v1.99999999999999999999.0").2.2.2 ≠ none ∧
      ((parseTag "v1.99999999999999999999.0").1 = 0 ∧
        (parseTag "v1.99999999999999999999.0").2.1 = 0 ∧
        (parseTag "v1.99999999999999999999.0").2.2.1 = false) :=
  ⟨by decide, parseTag_error_zero "v1.99999999999999999999.0" (by decide)⟩

/-! ## Lemmas on `main` -/

theorem GoInt.val_add_one (m : GoInt) (h : m.val < maxInt) : (m + 1).val = m.val + 1 := by
  have hm := m.property
  show wrapInt (m.val + wrapInt ((1 : Nat) : Int)) = m.val + 1
  unfold wrapInt
  unfold minInt maxInt at *
  omega

theorem releaseExists_iff (newRelease : ReleaseSeries) (rs : List ReleaseSeries) :
    releaseExists newRelease rs = true ↔
      ∃ e ∈ rs, e.Major = newRelease.Major ∧ e.Minor = newRelease.Minor := by
  induction rs with
  | nil => simp [releaseExists]
  | cons r rest ih =>
    by_cases h : r.Major = newRelease.Major ∧ r.Minor = newRelease.Minor
    · simp [releaseExists, h]
    · simp only [releaseExists, h, if_false, ih, List.mem_cons, exists_eq_or_imp, false_or]

theorem releaseExists_append_self (newRelease : ReleaseSeries) (rs : List ReleaseSeries) :
    releaseExists newRelease (rs ++ [newRelease]) = true :=
  (releaseExists_iff _ _).2 ⟨newRelease, by simp, rfl, rfl⟩

theorem parseTag_ok_ne_empty (tag : String) (hok : (parseTag tag).2.2.2 = none) :
    tag ≠ "" := by
  intro h
  rw [h] at hok
  exact absurd hok (by decide)

/-- The run on a tag that parses as a minor release, when the file loads. -/
theorem main_minorRelease (tag contractFlag repoDir : String) (sys : Sys)
    (major minor : GoInt) (d : Metadata)
    (hparse : parseTag tag = (major, minor, false, none))
    (hread : readMetadata sys (sys.join repoDir "metadata.yaml") = (d, none)) :
    main tag contractFlag repoDir sys =
      if releaseExists ⟨major, minor + 1, contractFlag⟩ d.ReleaseSeries then
        { status := .success, ops := [.read (sys.join repoDir "metadata.yaml")] }
      else
        { status :=
            match writeMetadata sys (sys.join repoDir "metadata.yaml")
              ⟨d.APIVersion, d.ReleaseSeries ++ [⟨major, minor + 1, contractFlag⟩]⟩ with
            | some err => .failure ("Failed to write metadata file: " ++ err)
            | none => .success
          ops := [.read (sys.join repoDir "metadata.yaml"),
            .write (sys.join repoDir "metadata.yaml")
              ⟨d.APIVersion, d.ReleaseSeries ++ [⟨major, minor + 1, contractFlag⟩]⟩] } := by
  have hne : tag ≠ "" := parseTag_ok_ne_empty tag (by rw [hparse])
  simp only [main, hne, if_false, hparse, hread]
  by_cases hex : releaseExists ⟨major, minor + 1, contractFlag⟩ d.ReleaseSeries = true
  · simp [hex]
  · simp only [hex, if_false]
    cases hw : writeMetadata sys (sys.join repoDir "metadata.yaml")
        ⟨d.APIVersion, d.ReleaseSeries ++ [⟨major, minor + 1, contractFlag⟩]⟩ <;> simp

/-- The run on a tag that parses as a patch release: it ends at once. -/
theorem main_patchRelease (tag contractFlag repoDir : String) (sys : Sys)
    (major minor : GoInt) (hparse : parseTag tag = (major, minor, true, none)) :
    main tag contractFlag repoDir sys = { status := .success, ops := [] } := by
  have hne : tag ≠ "" := parseTag_ok_ne_empty tag (by rw [hparse])
  simp only [main, hne, if_false, hparse, if_true]

/-! ## Properties of `main` -/

/-- C3: on every tag that `parseTag` accepts with isPatch = true, for every contract
label, directory and state of the system (also one whose metadata file cannot be read
or parsed), the run ends successfully and makes no call on the metadata file: it is
neither read nor written. -/
theorem main_patch_skip (tag contractFlag repoDir : String) (sys : Sys)
    (hok : (parseTag tag).2.2.2 = none) (hpatch : (parseTag tag).2.2.1 = true) :
    main tag contractFlag repoDir sys = { status := .success, ops := [] } := by
  rcases hp : parseTag tag with ⟨major, minor, isPatch, err⟩
  rw [hp] at hok hpatch
  simp only at hok hpatch
  subst hok hpatch
  exact main_patchRelease tag contractFlag repoDir sys major minor hp

/-- Witness of C3: the tag `v0.8.1`, with a metadata file that cannot be read. -/
theorem main_patch_skip_witness :
    ((parseTag "v0.8.1").2.2.2 = none ∧ (parseTag "v0.8.1").2.2.1 = true) ∧
      main "v0.8.1" "v1beta1" "/repo"
        (Sys.ofFile (some "open metadata.yaml: no such file or directory")
          (Metadata.zero, none) (some "read-only file system")) =
        { status := .success, ops := [] } :=
  ⟨by decide, main_patch_skip "v0.8.1" "v1beta1" "/repo" _ (by decide) (by decide)⟩

/-- C2: when the tag parses as a minor release `vM.m.0` and the loaded document has
an entry with major = M and minor = m + 1, whatever the contract of that entry and
whatever the contract label passed, the run ends successfully after the load and
makes no call of `writeMetadata`. -/
theorem main_duplicate_skip (tag contractFlag repoDir : String) (sys : Sys)
    (M m : GoInt) (d : Metadata)
    (hparse : parseTag tag = (M, m, false, none))
    (hread : readMetadata sys (sys.join repoDir "metadata.yaml") = (d, none))
    (hdup : ∃ e ∈ d.ReleaseSeries, e.Major.val = M.val ∧ e.Minor.val = m.val + 1) :
    main tag contractFlag repoDir sys =
      { status := .success, ops := [.read (sys.join repoDir "metadata.yaml")] } := by
  rw [main_minorRelease tag contractFlag repoDir sys M m d hparse hread]
  obtain ⟨e, he, hM, hm⟩ := hdup
  have hlt : m.val < maxInt := by
    have := e.Minor.property.2
    omega
  have hex : releaseExists ⟨M, m + 1, contractFlag⟩ d.ReleaseSeries = true :=
    (releaseExists_iff _ _).2
      ⟨e, he, Subtype.ext hM, Subtype.ext (by rw [hm, GoInt.val_add_one m hlt])⟩
  rw [if_pos hex]

/-- Witness of C2: the tag `v2.3.0` with an existing entry `{2, 4, "v1alpha4"}`. -/
theorem main_duplicate_skip_witness :
    main "v2.3.0" "v1beta1" "/repo"
        (Sys.ofFile none (⟨"v1", [⟨1, 0, "v1beta1"⟩, ⟨2, 4, "v1alpha4"⟩]⟩, none) none) =
      { status := .success, ops := [.read "/repo/metadata.yaml"] } :=
  main_duplicate_skip "v2.3.0" "v1beta1" "/repo"
    (Sys.ofFile none (⟨"v1", [⟨1, 0, "v1beta1"⟩, ⟨2, 4, "v1alpha4"⟩]⟩, none) none) 2 3
    ⟨"v1", [⟨1, 0, "v1beta1"⟩, ⟨2, 4, "v1alpha4"⟩]⟩ (by decide) (by decide)
    ⟨⟨2, 4, "v1alpha4"⟩, by decide, by decide, by decide⟩

/-- C1 (amended): when the tag parses as a minor release `vM.m.0` with m < `maxInt`
and the loaded document has no entry with major = M and minor = m + 1, the run loads
the document and then hands to `writeMetadata` the document with the same apiVersion
whose entries are the loaded entries, in their order, followed by one new last entry
`{major: M, minor: m + 1, contract: c}`; the run ends successfully exactly when that
save returns no error. -/
theorem main_append (tag contractFlag repoDir : String) (sys : Sys)
    (M m : GoInt) (d : Metadata)
    (hparse : parseTag tag = (M, m, false, none))
    (hm : m.val < maxInt)
    (hread : readMetadata sys (sys.join repoDir "metadata.yaml") = (d, none))
    (hnew : ∀ e ∈ d.ReleaseSeries, ¬ (e.Major.val = M.val ∧ e.Minor.val = m.val + 1)) :
    ∃ newRelease : ReleaseSeries,
      newRelease.Major.val = M.val ∧ newRelease.Minor.val = m.val + 1 ∧
      newRelease.Contract = contractFlag ∧
      (main tag contractFlag repoDir sys).ops =
        [.read (sys.join repoDir "metadata.yaml"),
          .write (sys.join repoDir "metadata.yaml")
            ⟨d.APIVersion, d.ReleaseSeries ++ [newRelease]⟩] ∧
      ((main tag contractFlag repoDir sys).status = .success ↔
        writeMetadata sys (sys.join repoDir "metadata.yaml")
          ⟨d.APIVersion, d.ReleaseSeries ++ [newRelease]⟩ = none) := by
  refine ⟨⟨M, m + 1, contractFlag⟩, rfl, GoInt.val_add_one m hm, rfl, ?_⟩
  rw [main_minorRelease tag contractFlag repoDir sys M m d hparse hread]
  have hex : ¬ releaseExists ⟨M, m + 1, contractFlag⟩ d.ReleaseSeries = true := by
    rw [releaseExists_iff]
    rintro ⟨e, he, hM, hmi⟩
    refine hnew e he ⟨congrArg Subtype.val hM, ?_⟩
    rw [← GoInt.val_add_one m hm]
    exact congrArg Subtype.val hmi
  rw [if_neg hex]
  refine ⟨rfl, ?_⟩
  cases writeMetadata sys (sys.join repoDir "metadata.yaml")
    ⟨d.APIVersion, d.ReleaseSeries ++ [⟨M, m + 1, contractFlag⟩]⟩ <;> simp

/-- Witness of C1 (amended): the tag `v0.8.0`, the entries `[{1, 7, "v1beta1"}]` and
the contract `v1beta1`. -/
theorem main_append_witness :
    ∃ newRelease : ReleaseSeries,
      newRelease.Major.val = (0 : GoInt).val ∧ newRelease.Minor.val = (8 : GoInt).val + 1 ∧
      newRelease.Contract = "v1beta1" ∧
      (main "v0.8.0" "v1beta1" "/repo"
          (Sys.ofFile none (⟨"v1", [⟨1, 7, "v1beta1"⟩]⟩, none) none)).ops =
        [.read "/repo/metadata.yaml",
          .write "/repo/metadata.yaml" ⟨"v1", [⟨1, 7, "v1beta1"⟩] ++ [newRelease]⟩] ∧
      ((main "v0.8.0" "v1beta1" "/repo"
          (Sys.ofFile none (⟨"v1", [⟨1, 7, "v1beta1"⟩]⟩, none) none)).status = .success ↔
        writeMetadata (Sys.ofFile none (⟨"v1", [⟨1, 7, "v1beta1"⟩]⟩, none) none)
          "/repo/metadata.yaml" ⟨"v1", [⟨1, 7, "v1beta1"⟩] ++ [newRelease]⟩ = none) :=
  main_append "v0.8.0" "v1beta1" "/repo"
    (Sys.ofFile none (⟨"v1", [⟨1, 7, "v1beta1"⟩]⟩, none) none) 0 8
    ⟨"v1", [⟨1, 7, "v1beta1"⟩]⟩ (by decide) (by decide) (by decide) (by decide)

/-- The scenario of C1 evaluated: tag `v0.8.0`, entries `[{1, 7, "v1beta1"}]`, contract
`v1beta1` give the saved entries `[{1, 7, "v1beta1"}, {0, 9, "v1beta1"}]`. -/
theorem main_append_scenario :
    main "v0.8.0" "v1beta1" "/repo" (Sys.ofFile none (⟨"v1", [⟨1, 7, "v1beta1"⟩]⟩, none) none) =
      { status := .success
        ops := [.read "/repo/metadata.yaml",
          .write "/repo/metadata.yaml" ⟨"v1", [⟨1, 7, "v1beta1"⟩, ⟨0, 9, "v1beta1"⟩]⟩] } := by
  decide

/-- Counterexample to C1 as stated: `v0.9223372036854775807.0` parses as a minor
release with M = 0 and m = 2^63 - 1, the loaded document has no entry with major 0,
and the entry that the run appends and saves has minor = -2^63, which is not m + 1:
the addition wraps around. -/
theorem main_append_counterexample :
    parseTag "v0.9223372036854775807.0" =
        (0, GoInt.ofInt 9223372036854775807, false, none) ∧
      (GoInt.ofInt 9223372036854775807).val = 9223372036854775807 ∧
      main "v0.9223372036854775807.0" "v1beta1" "/repo"
          (Sys.ofFile none (⟨"v1", [⟨1, 7, "v1beta1"⟩]⟩, none) none) =
        { status := .success
          ops := [.read "/repo/metadata.yaml",
            .write "/repo/metadata.yaml"
              ⟨"v1", [⟨1, 7, "v1beta1"⟩,
                ⟨0, GoInt.ofInt (-9223372036854775808), "v1beta1"⟩]⟩] } ∧
      (GoInt.ofInt (-9223372036854775808)).val = -9223372036854775808 ∧
      (GoInt.ofInt (-9223372036854775808)).val ≠
        (GoInt.ofInt 9223372036854775807).val + 1 := by
  decide

/-- The runs that end successfully: the tag parses, and either it is a patch release
and the run made no call on the file, or it is a minor release and the run is the one
of `main_minorRelease`. -/
theorem main_success_cases (tag contractFlag repoDir : String) (sys : Sys)
    (hok : (main tag contractFlag repoDir sys).status = .success) :
    ∃ major minor isPatch, parseTag tag = (major, minor, isPatch, none) ∧
      (isPatch = true → main tag contractFlag repoDir sys = { status := .success, ops := [] }) := by
  by_cases hne : tag = ""
  · simp [main, hne] at hok
  rcases hp : parseTag tag with ⟨major, minor, isPatch, err⟩
  cases err with
  | some e => simp [main, hne, hp] at hok
  | none =>
    refine ⟨major, minor, isPatch, rfl, fun h => ?_⟩
    subst h
    exact main_patchRelease tag contractFlag repoDir sys major minor hp

/-- When a run on a loaded document `d` ends successfully, a run with the same tag,
contract and directory on a system whose load returns the document left by the first
one also ends successfully, leaves that document as it is, and makes no call of
`writeMetadata`. Whether the load of a second run returns that document depends on
the file system and on the YAML library. -/
theorem main_idempotent (tag contractFlag repoDir : String) (sys1 sys2 : Sys) (d : Metadata)
    (hread1 : readMetadata sys1 (sys1.join repoDir "metadata.yaml") = (d, none))
    (hok : (main tag contractFlag repoDir sys1).status = .success)
    (hread2 : readMetadata sys2 (sys2.join repoDir "metadata.yaml") =
      ((main tag contractFlag repoDir sys1).resultDoc d, none)) :
    (main tag contractFlag repoDir sys2).status = .success ∧
      (main tag contractFlag repoDir sys2).resultDoc
          ((main tag contractFlag repoDir sys1).resultDoc d) =
        (main tag contractFlag repoDir sys1).resultDoc d ∧
      ∀ path metadata, FileOp.write path metadata ∉ (main tag contractFlag repoDir sys2).ops := by
  obtain ⟨major, minor, isPatch, hp, hskip⟩ :=
    main_success_cases tag contractFlag repoDir sys1 hok
  cases isPatch with
  | true =>
    have h2 := main_patchRelease tag contractFlag repoDir sys2 major minor hp
    rw [hskip rfl, h2]
    simp [Run.resultDoc, lastWritten]
  | false =>
    have h1 := main_minorRelease tag contractFlag repoDir sys1 major minor d hp hread1
    by_cases hex : releaseExists ⟨major, minor + 1, contractFlag⟩ d.ReleaseSeries = true
    · rw [if_pos hex] at h1
      rw [h1] at hread2 ⊢
      have hd : Run.resultDoc
          { status := .success, ops := [.read (sys1.join repoDir "metadata.yaml")] } d = d := rfl
      rw [hd] at hread2 ⊢
      rw [main_minorRelease tag contractFlag repoDir sys2 major minor d hp hread2, if_pos hex]
      simp [Run.resultDoc, lastWritten]
    · rw [if_neg hex] at h1
      rw [h1] at hread2 ⊢
      simp only [Run.resultDoc, lastWritten, Option.getD_some, Option.getD_none] at hread2 ⊢
      rw [main_minorRelease tag contractFlag repoDir sys2 major minor _ hp hread2,
        if_pos (releaseExists_append_self _ _)]
      simp [lastWritten]

theorem keyCount_eq_zero_of_not_exists (newRelease : ReleaseSeries) (d : Metadata)
    (hex : ¬ releaseExists newRelease d.ReleaseSeries = true) :
    keyCount newRelease.Major.val newRelease.Minor.val d = 0 := by
  unfold keyCount
  rw [List.countP_eq_zero]
  intro e he h
  apply hex
  rw [releaseExists_iff]
  have h' : e.Major.val = newRelease.Major.val ∧ e.Minor.val = newRelease.Minor.val := by
    simpa using h
  exact ⟨e, he, Subtype.ext h'.1, Subtype.ext h'.2⟩

theorem keyCount_append_singleton (major minor : Int) (apiVersion : String)
    (rs : List ReleaseSeries) (e : ReleaseSeries) :
    keyCount major minor ⟨apiVersion, rs ++ [e]⟩ =
      keyCount major minor ⟨apiVersion, rs⟩ +
        (if e.Major.val = major ∧ e.Minor.val = minor then 1 else 0) := by
  unfold keyCount
  simp only [List.countP_append, List.countP_cons, List.countP_nil, Nat.zero_add]
  by_cases h : e.Major.val = major ∧ e.Minor.val = minor <;> simp [h]

/-- C8 (amended): after a successful run on a loaded document, for every pair
(major, minor) the resulting document has at most one entry with that pair, or at most
as many as the loaded document had: two entries of the result share a pair only if
two entries of the loaded document already did. -/
theorem main_keyCount_le (tag contractFlag repoDir : String) (sys : Sys) (d : Metadata)
    (hread : readMetadata sys (sys.join repoDir "metadata.yaml") = (d, none))
    (hok : (main tag contractFlag repoDir sys).status = .success) (major minor : Int) :
    keyCount major minor ((main tag contractFlag repoDir sys).resultDoc d) ≤
      max 1 (keyCount major minor d) := by
  obtain ⟨M, m, isPatch, hp, hskip⟩ := main_success_cases tag contractFlag repoDir sys hok
  cases isPatch with
  | true =>
    rw [hskip rfl]
    exact le_max_right _ _
  | false =>
    rw [main_minorRelease tag contractFlag repoDir sys M m d hp hread]
    by_cases hex : releaseExists ⟨M, m + 1, contractFlag⟩ d.ReleaseSeries = true
    · rw [if_pos hex]
      exact le_max_right _ _
    · rw [if_neg hex]
      simp only [Run.resultDoc, lastWritten, Option.getD_some, Option.getD_none]
      rw [keyCount_append_singleton]
      by_cases hk : (M.val = major ∧ (m + 1).val = minor)
      · have h0 := keyCount_eq_zero_of_not_exists ⟨M, m + 1, contractFlag⟩ d hex
        simp only at h0
        rw [hk.1, hk.2] at h0
        have hd : keyCount major minor ⟨d.APIVersion, d.ReleaseSeries⟩ = 0 := h0
        rw [hd, if_pos hk]
        exact le_max_left _ _
      · rw [if_neg hk]
        exact le_max_right _ _

/-- Witness of C8 (amended): the tag `v0.8.0` on the entries `[{1, 7, "v1beta1"}]`, for
the pair (0, 9) of the appended entry. -/
theorem main_keyCount_le_witness :
    keyCount 0 9
        ((main "v0.8.0" "v1beta1" "/repo"
          (Sys.ofFile none (⟨"v1", [⟨1, 7, "v1beta1"⟩]⟩, none) none)).resultDoc
            ⟨"v1", [⟨1, 7, "v1beta1"⟩]⟩) ≤
      max 1 (keyCount 0 9 ⟨"v1", [⟨1, 7, "v1beta1"⟩]⟩) :=
  main_keyCount_le "v0.8.0" "v1beta1" "/repo"
    (Sys.ofFile none (⟨"v1", [⟨1, 7, "v1beta1"⟩]⟩, none) none)
    ⟨"v1", [⟨1, 7, "v1beta1"⟩]⟩ (by decide) (by decide) 0 9

/-- Counterexample to C8 as stated: the run on the tag `v0.8.0` and a loaded document
with the entries `[{1, 7, "v1alpha4"}, {1, 7, "v1beta1"}]` ends successfully, and its
resulting document `[{1, 7, "v1alpha4"}, {1, 7, "v1beta1"}, {0, 9, "v1beta1"}]` has two
entries with the pair (1, 7). -/
theorem main_unique_counterexample :
    readMetadata (Sys.ofFile none
          (⟨"v1", [⟨1, 7, "v1alpha4"⟩, ⟨1, 7, "v1beta1"⟩]⟩, none) none) "/repo/metadata.yaml" =
        (⟨"v1", [⟨1, 7, "v1alpha4"⟩, ⟨1, 7, "v1beta1"⟩]⟩, none) ∧
      (main "v0.8.0" "v1beta1" "/repo"
        (Sys.ofFile none
          (⟨"v1", [⟨1, 7, "v1alpha4"⟩, ⟨1, 7, "v1beta1"⟩]⟩, none) none)).status = .success ∧
      (main "v0.8.0" "v1beta1" "/repo"
        (Sys.ofFile none
          (⟨"v1", [⟨1, 7, "v1alpha4"⟩, ⟨1, 7, "v1beta1"⟩]⟩, none) none)).resultDoc
          ⟨"v1", [⟨1, 7, "v1alpha4"⟩, ⟨1, 7, "v1beta1"⟩]⟩ =
        ⟨"v1", [⟨1, 7, "v1alpha4"⟩, ⟨1, 7, "v1beta1"⟩, ⟨0, 9, "v1beta1"⟩]⟩ ∧
      keyCount 1 7
        ((main "v0.8.0" "v1beta1" "/repo"
          (Sys.ofFile none
            (⟨"v1", [⟨1, 7, "v1alpha4"⟩, ⟨1, 7, "v1beta1"⟩]⟩, none) none)).resultDoc
            ⟨"v1", [⟨1, 7, "v1alpha4"⟩, ⟨1, 7, "v1beta1"⟩]⟩) = 2 := by
  decide

/-- C9: the run ends in failure if and only if the tag is empty, or `parseTag` returns
an error, or the tag is a minor release and loading the metadata fails, or the tag is
a minor release, the loaded document has no entry with the major and the minor + 1 of
the tag, and saving the document with the new entry fails; in every other case it
ends successfully. When the tag is empty, or does not parse, or the load fails, the
run makes no call of `writeMetadata`. -/
theorem main_exit (tag contractFlag repoDir : String) (sys : Sys) :
    ((main tag contractFlag repoDir sys).status ≠ .success ↔
      (tag = "" ∨ (parseTag tag).2.2.2 ≠ none ∨
        ((parseTag tag).2.2.2 = none ∧ (parseTag tag).2.2.1 = false ∧
          (readMetadata sys (sys.join repoDir "metadata.yaml")).2 ≠ none) ∨
        ((parseTag tag).2.2.2 = none ∧ (parseTag tag).2.2.1 = false ∧
          (readMetadata sys (sys.join repoDir "metadata.yaml")).2 = none ∧
          (¬ ∃ e ∈ (readMetadata sys (sys.join repoDir "metadata.yaml")).1.ReleaseSeries,
            e.Major = (parseTag tag).1 ∧ e.Minor = (parseTag tag).2.1 + 1) ∧
          writeMetadata sys (sys.join repoDir "metadata.yaml")
            ⟨(readMetadata sys (sys.join repoDir "metadata.yaml")).1.APIVersion,
              (readMetadata sys (sys.join repoDir "metadata.yaml")).1.ReleaseSeries ++
                [⟨(parseTag tag).1, (parseTag tag).2.1 + 1, contractFlag⟩]⟩ ≠ none))) ∧
      ((main tag contractFlag repoDir sys).status = .success ∨
        ∃ msg, (main tag contractFlag repoDir sys).status = .failure msg) ∧
      ((tag = "" ∨ (parseTag tag).2.2.2 ≠ none ∨
          (readMetadata sys (sys.join repoDir "metadata.yaml")).2 ≠ none) →
        ∀ path metadata,
          FileOp.write path metadata ∉ (main tag contractFlag repoDir sys).ops) := by
  refine ⟨?_, ?_, ?_⟩
  · by_cases hne : tag = ""
    · simp [main, hne]
    rcases hp : parseTag tag with ⟨major, minor, isPatch, err⟩
    cases err with
    | some e => simp [main, hne, hp]
    | none =>
      cases isPatch with
      | true => simp [main, hne, hp]
      | false =>
        rcases hr : readMetadata sys (sys.join repoDir "metadata.yaml") with ⟨d, rerr⟩
        cases rerr with
        | some e => simp [main, hne, hp, hr]
        | none =>
          rw [main_minorRelease tag contractFlag repoDir sys major minor d hp hr]
          by_cases hex : releaseExists ⟨major, minor + 1, contractFlag⟩ d.ReleaseSeries = true
          · have hex' := (releaseExists_iff _ _).1 hex
            simp only at hex'
            simp [hne, hex, hex']
          · have hex' : ¬ ∃ e ∈ d.ReleaseSeries, e.Major = major ∧ e.Minor = minor + 1 :=
              fun h => hex ((releaseExists_iff _ _).2 h)
            rw [if_neg hex]
            cases hw : writeMetadata sys (sys.join repoDir "metadata.yaml")
              ⟨d.APIVersion, d.ReleaseSeries ++ [⟨major, minor + 1, contractFlag⟩]⟩ with
            | none => simp [hne, hw]
            | some e =>
              simp only [hne, hw, ne_eq, not_true_eq_false, not_false_eq_true, false_or,
                true_and, reduceCtorEq, and_true, true_iff]
              exact hex'
  · cases (main tag contractFlag repoDir sys).status with
    | success => exact Or.inl rfl
    | failure msg => exact Or.inr ⟨msg, rfl⟩
  · intro h path metadata
    by_cases hne : tag = ""
    · simp [main, hne]
    rcases hp : parseTag tag with ⟨major, minor, isPatch, err⟩
    cases err with
    | some e => simp [main, hne, hp]
    | none =>
      cases isPatch with
      | true => simp [main, hne, hp]
      | false =>
        rcases hr : readMetadata sys (sys.join repoDir "metadata.yaml") with ⟨d, rerr⟩
        cases rerr with
        | some e => simp [main, hne, hp, hr]
        | none =>
          rw [hp, hr] at h
          simp [hne] at h

/-! ## Error messages and integer range of `parseTag` -/

/-- The error returned on a tag of the shape `v<digits>.<digits>.<digits>` names the
first component whose value does not fit `int`, followed by its digits. -/
theorem parseTag_outOfRange (a b c : List Char)
    (ha : isDigits a) (hb : isDigits b) (hc : isDigits c) :
    (¬ (decimalValue a : Int) ≤ maxInt →
        parseTag (String.mk ('v' :: (a ++ '.' :: (b ++ '.' :: c)))) =
          (0, 0, false, some ("invalid major version: " ++ String.mk a))) ∧
      ((decimalValue a : Int) ≤ maxInt → ¬ (decimalValue b : Int) ≤ maxInt →
        parseTag (String.mk ('v' :: (a ++ '.' :: (b ++ '.' :: c)))) =
          (0, 0, false, some ("invalid minor version: " ++ String.mk b))) ∧
      ((decimalValue a : Int) ≤ maxInt → (decimalValue b : Int) ≤ maxInt →
        ¬ (decimalValue c : Int) ≤ maxInt →
        parseTag (String.mk ('v' :: (a ++ '.' :: (b ++ '.' :: c)))) =
          (0, 0, false, some ("invalid patch version: " ++ String.mk c))) := by
  have hm := findStringSubmatch_wellFormed a b c ha hb hc
  refine ⟨fun h1 => ?_, fun h1 h2 => ?_, fun h1 h2 h3 => ?_⟩
  · simp [parseTag, hm, atoi_digits_outOfRange a ha h1]
  · obtain ⟨g1, e1, -⟩ := atoi_digits_inRange a ha h1
    simp [parseTag, hm, e1, atoi_digits_outOfRange b hb h2]
  · obtain ⟨g1, e1, -⟩ := atoi_digits_inRange a ha h1
    obtain ⟨g2, e2, -⟩ := atoi_digits_inRange b hb h2
    simp [parseTag, hm, e1, e2, atoi_digits_outOfRange c hc h3]

/-- The error returned on a string that the pattern does not match. -/
theorem parseTag_noMatch (tag : String) (h : findStringSubmatch tag = []) :
    parseTag tag = (0, 0, false, some ("invalid tag format: " ++ tag)) := by
  simp [parseTag, h]

theorem containsString_append_right (p s : String) : containsString (p ++ s) s := by
  unfold containsString
  rw [String.data_append]
  exact (List.suffix_append _ _).isInfix

/-- C12 (amended): when `parseTag` returns an error, either the message is exactly
`invalid tag format: ` followed by the whole input, which it so contains verbatim, or
the input has the shape `v<digits>.<digits>.<digits>` and the message is
`invalid major version: `, `invalid minor version: ` or `invalid patch version: `
followed by the digits of that component alone. -/
theorem parseTag_error_message (tag : String) (herr : (parseTag tag).2.2.2 ≠ none) :
    ((parseTag tag).2.2.2 = some ("invalid tag format: " ++ tag) ∧
        containsString ("invalid tag format: " ++ tag) tag) ∨
      ∃ a b c : List Char, isDigits a ∧ isDigits b ∧ isDigits c ∧
        tag.data = 'v' :: (a ++ '.' :: (b ++ '.' :: c)) ∧
        ((parseTag tag).2.2.2 = some ("invalid major version: " ++ String.mk a) ∨
          (parseTag tag).2.2.2 = some ("invalid minor version: " ++ String.mk b) ∨
          (parseTag tag).2.2.2 = some ("invalid patch version: " ++ String.mk c)) := by
  rcases findStringSubmatch_shape tag with h | ⟨a, b, c, ha, hb, hc, ht, -⟩
  · left
    rw [parseTag_noMatch tag h]
    exact ⟨rfl, containsString_append_right _ _⟩
  · right
    refine ⟨a, b, c, ha, hb, hc, ht, ?_⟩
    have htag : tag = String.mk ('v' :: (a ++ '.' :: (b ++ '.' :: c))) := String.ext ht
    obtain ⟨hiff, -, -⟩ := parseTag_wellFormed a b c ha hb hc
    obtain ⟨o1, o2, o3⟩ := parseTag_outOfRange a b c ha hb hc
    rw [← htag] at hiff o1 o2 o3
    by_cases h1 : (decimalValue a : Int) ≤ maxInt
    · by_cases h2 : (decimalValue b : Int) ≤ maxInt
      · by_cases h3 : (decimalValue c : Int) ≤ maxInt
        · exact absurd (hiff.2 ⟨h1, h2, h3⟩) herr
        · rw [o3 h1 h2 h3]
          exact Or.inr (Or.inr rfl)
      · rw [o2 h1 h2]
        exact Or.inr (Or.inl rfl)
    · rw [o1 h1]
      exact Or.inl rfl

/-- Witness of C12 (amended): `v1.2` does not match, `v1.99999999999999999999.0` has a
minor component that does not fit `int`. -/
theorem parseTag_error_message_witness :
    (((parseTag "v1.2").2.2.2 = some ("invalid tag format: " ++ "v1.2") ∧
          containsString ("invalid tag format: " ++ "v1.2") "v1.2") ∨
        ∃ a b c : List Char, isDigits a ∧ isDigits b ∧ isDigits c ∧
          "v1.2".data = 'v' :: (a ++ '.' :: (b ++ '.' :: c)) ∧
          ((parseTag "v1.2").2.2.2 = some ("invalid major version: " ++ String.mk a) ∨
            (parseTag "v1.2").2.2.2 = some ("invalid minor version: " ++ String.mk b) ∨
            (parseTag "v1.2").2.2.2 = some ("invalid patch version: " ++ String.mk c))) ∧
      (parseTag "v1.99999999999999999999.0").2.2.2 =
        some "invalid minor version: 99999999999999999999" :=
  ⟨parseTag_error_message "v1.2" (by decide), by decide⟩

/-- Counterexample to C12 as stated: on `v99999999999999999999.0.0` `parseTag` returns
the error `invalid major version: 99999999999999999999`, which does not contain the
input tag. -/
theorem parseTag_error_message_counterexample :
    (parseTag "v99999999999999999999.0.0").2.2.2 =
        some "invalid major version: 99999999999999999999" ∧
      ¬ containsString "invalid major version: 99999999999999999999"
        "v99999999999999999999.0.0" := by
  decide

/-- C15: on a tag `v<digits>.<digits>.<digits>` in which the value of some component
exceeds the largest `int` (`maxInt = 2^63 - 1`), `parseTag` returns `0, 0, false` and an
error that names the first such component: `invalid major version: `,
`invalid minor version: ` or `invalid patch version: ` followed by the digits of that
component alone. -/
theorem parseTag_range_error (MAJOR MINOR PATCH : String)
    (hM : isDigits MAJOR.data) (hm : isDigits MINOR.data) (hp : isDigits PATCH.data) :
    (maxInt < (base10Value MAJOR : Int) →
        parseTag ("v" ++ MAJOR ++ "." ++ MINOR ++ "." ++ PATCH) =
          (0, 0, false, some ("invalid major version: " ++ MAJOR))) ∧
      ((base10Value MAJOR : Int) ≤ maxInt → maxInt < (base10Value MINOR : Int) →
        parseTag ("v" ++ MAJOR ++ "." ++ MINOR ++ "." ++ PATCH) =
          (0, 0, false, some ("invalid minor version: " ++ MINOR))) ∧
      ((base10Value MAJOR : Int) ≤ maxInt → (base10Value MINOR : Int) ≤ maxInt →
        maxInt < (base10Value PATCH : Int) →
        parseTag ("v" ++ MAJOR ++ "." ++ MINOR ++ "." ++ PATCH) =
          (0, 0, false, some ("invalid patch version: " ++ PATCH))) := by
  have eM : decimalValue MAJOR.data = base10Value MAJOR := decimalValue_eq_base10Value _
  have em : decimalValue MINOR.data = base10Value MINOR := decimalValue_eq_base10Value _
  have ep : decimalValue PATCH.data = base10Value PATCH := decimalValue_eq_base10Value _
  obtain ⟨o1, o2, o3⟩ := parseTag_outOfRange MAJOR.data MINOR.data PATCH.data hM hm hp
  simp only [← tag_eq_mk, eM, em, ep] at o1 o2 o3
  exact ⟨fun h1 => o1 (not_le.2 h1), fun h1 h2 => o2 h1 (not_le.2 h2),
    fun h1 h2 h3 => o3 h1 h2 (not_le.2 h3)⟩

/-- Witness of C15: the tag `v99999999999999999999.0.0`. -/
theorem parseTag_range_error_witness :
    (isDigits "99999999999999999999".data ∧ isDigits "0".data ∧
        maxInt < (base10Value "99999999999999999999" : Int)) ∧
      parseTag ("v" ++ "99999999999999999999" ++ "." ++ "0" ++ "." ++ "0") =
        (0, 0, false, some ("invalid major version: " ++ "99999999999999999999")) :=
  ⟨by decide,
    (parseTag_range_error "99999999999999999999" "0" "0" (by decide) (by decide)
      (by decide)).1 (by decide)⟩

/-! ## Frame and uniqueness of the update -/

/-- The document left by a successful run on a loaded document: the loaded one, or
the loaded one with the entry of the tag added at the end. -/
theorem main_resultDoc_cases (tag contractFlag repoDir : String) (sys : Sys) (d : Metadata)
    (hread : readMetadata sys (sys.join repoDir "metadata.yaml") = (d, none))
    (hok : (main tag contractFlag repoDir sys).status = .success) :
    (main tag contractFlag repoDir sys).resultDoc d = d ∨
      ∃ major minor : GoInt, (∃ isPatch, parseTag tag = (major, minor, isPatch, none)) ∧
        ¬ releaseExists ⟨major, minor + 1, contractFlag⟩ d.ReleaseSeries = true ∧
        (main tag contractFlag repoDir sys).resultDoc d =
          ⟨d.APIVersion, d.ReleaseSeries ++ [⟨major, minor + 1, contractFlag⟩]⟩ := by
  obtain ⟨major, minor, isPatch, hp, hskip⟩ :=
    main_success_cases tag contractFlag repoDir sys hok
  cases isPatch with
  | true =>
    left
    rw [hskip rfl]
    rfl
  | false =>
    rw [main_minorRelease tag contractFlag repoDir sys major minor d hp hread]
    by_cases hex : releaseExists ⟨major, minor + 1, contractFlag⟩ d.ReleaseSeries = true
    · left
      rw [if_pos hex]
      rfl
    · right
      rw [if_neg hex]
      exact ⟨major, minor, ⟨false, hp⟩, hex, rfl⟩

/-- C11: after a successful run on a loaded document, the resulting document has the
apiVersion of the loaded one, and its entry list is the loaded list or the loaded list
with exactly one entry added at the end: no loaded entry is removed, moved or
changed. -/
theorem main_frame (tag contractFlag repoDir : String) (sys : Sys) (d : Metadata)
    (hread : readMetadata sys (sys.join repoDir "metadata.yaml") = (d, none))
    (hok : (main tag contractFlag repoDir sys).status = .success) :
    ((main tag contractFlag repoDir sys).resultDoc d).APIVersion = d.APIVersion ∧
      (((main tag contractFlag repoDir sys).resultDoc d).ReleaseSeries = d.ReleaseSeries ∨
        ∃ e : ReleaseSeries,
          ((main tag contractFlag repoDir sys).resultDoc d).ReleaseSeries =
            d.ReleaseSeries ++ [e]) := by
  rcases main_resultDoc_cases tag contractFlag repoDir sys d hread hok with
    h | ⟨major, minor, -, -, h⟩
  · rw [h]
    exact ⟨rfl, Or.inl rfl⟩
  · rw [h]
    exact ⟨rfl, Or.inr ⟨_, rfl⟩⟩

/-- Witness of C11: the tag `v0.8.0` on the entries `[{1, 7, "v1beta1"}]`. -/
theorem main_frame_witness :
    ((main "v0.8.0" "v1beta1" "/repo"
        (Sys.ofFile none (⟨"v1", [⟨1, 7, "v1beta1"⟩]⟩, none) none)).resultDoc
          ⟨"v1", [⟨1, 7, "v1beta1"⟩]⟩).APIVersion = "v1" ∧
      (((main "v0.8.0" "v1beta1" "/repo"
          (Sys.ofFile none (⟨"v1", [⟨1, 7, "v1beta1"⟩]⟩, none) none)).resultDoc
            ⟨"v1", [⟨1, 7, "v1beta1"⟩]⟩).ReleaseSeries = [⟨1, 7, "v1beta1"⟩] ∨
        ∃ e : ReleaseSeries,
          ((main "v0.8.0" "v1beta1" "/repo"
            (Sys.ofFile none (⟨"v1", [⟨1, 7, "v1beta1"⟩]⟩, none) none)).resultDoc
              ⟨"v1", [⟨1, 7, "v1beta1"⟩]⟩).ReleaseSeries = [⟨1, 7, "v1beta1"⟩] ++ [e]) :=
  main_frame "v0.8.0" "v1beta1" "/repo"
    (Sys.ofFile none (⟨"v1", [⟨1, 7, "v1beta1"⟩]⟩, none) none)
    ⟨"v1", [⟨1, 7, "v1beta1"⟩]⟩ (by decide) (by decide)

theorem key_not_mem_of_not_exists (newRelease : ReleaseSeries) (rs : List ReleaseSeries)
    (hex : ¬ releaseExists newRelease rs = true) :
    (newRelease.Major.val, newRelease.Minor.val) ∉
      rs.map (fun e => (e.Major.val, e.Minor.val)) := by
  intro hmem
  obtain ⟨e, he, hk⟩ := List.mem_map.1 hmem
  apply hex
  rw [releaseExists_iff]
  have h1 : e.Major.val = newRelease.Major.val := congrArg Prod.fst hk
  have h2 : e.Minor.val = newRelease.Minor.val := congrArg Prod.snd hk
  exact ⟨e, he, Subtype.ext h1, Subtype.ext h2⟩

/-- C14: when no two entries of the loaded document have the same (major, minor)
pair, no two entries of the document resulting from a successful run have the same
pair either. -/
theorem main_uniqueKeys (tag contractFlag repoDir : String) (sys : Sys) (d : Metadata)
    (hread : readMetadata sys (sys.join repoDir "metadata.yaml") = (d, none))
    (hok : (main tag contractFlag repoDir sys).status = .success)
    (huniq : uniqueKeys d) :
    uniqueKeys ((main tag contractFlag repoDir sys).resultDoc d) := by
  rcases main_resultDoc_cases tag contractFlag repoDir sys d hread hok with
    h | ⟨major, minor, -, hex, h⟩
  · rw [h]
    exact huniq
  · rw [h]
    have hnot := key_not_mem_of_not_exists ⟨major, minor + 1, contractFlag⟩ d.ReleaseSeries hex
    unfold uniqueKeys at huniq ⊢
    simp only [List.map_append, List.map_cons, List.map_nil]
    rw [List.nodup_append]
    refine ⟨huniq, List.nodup_singleton _, ?_⟩
    intro k hk hk'
    rw [List.mem_singleton] at hk'
    rw [hk'] at hk
    exact hnot hk

/-- Witness of C14: the tag `v0.8.0` on the entries
`[{1, 7, "v1beta1"}, {0, 8, "v1beta1"}]`. -/
theorem main_uniqueKeys_witness :
    uniqueKeys ⟨"v1", [⟨1, 7, "v1beta1"⟩, ⟨0, 8, "v1beta1"⟩]⟩ ∧
      uniqueKeys
        ((main "v0.8.0" "v1beta1" "/repo"
          (Sys.ofFile none
            (⟨"v1", [⟨1, 7, "v1beta1"⟩, ⟨0, 8, "v1beta1"⟩]⟩, none) none)).resultDoc
            ⟨"v1", [⟨1, 7, "v1beta1"⟩, ⟨0, 8, "v1beta1"⟩]⟩) :=
  ⟨by decide,
    main_uniqueKeys "v0.8.0" "v1beta1" "/repo"
      (Sys.ofFile none (⟨"v1", [⟨1, 7, "v1beta1"⟩, ⟨0, 8, "v1beta1"⟩]⟩, none) none)
      ⟨"v1", [⟨1, 7, "v1beta1"⟩, ⟨0, 8, "v1beta1"⟩]⟩ (by decide) (by decide) (by decide)⟩

/-! ## The save followed by the load -/

/-- What `writeMetadata` and `readMetadata` add to the libraries they call: when the
file system returns on a read what a successful write stored at the path, and the
YAML decoder returns the document from the text the encoder produced for it, a load
after a successful save returns the saved document and no error. Both assumptions
are on code outside the tool. -/
theorem readMetadata_after_writeMetadata (before after : Sys) (path : String) (d : Metadata)
    (hfile : ∀ data, before.writeFile path data = none → after.readFile path = .ok data)
    (hyaml : ∀ data, before.encode d = .ok data → after.unmarshal data = (d, none))
    (hwrite : writeMetadata before path d = none) :
    readMetadata after path = (d, none) := by
  unfold writeMetadata at hwrite
  cases he : before.encode d with
  | error err => simp [he] at hwrite
  | ok data =>
    rw [he] at hwrite
    simp only at hwrite
    simp [readMetadata, hfile data hwrite, hyaml data he]

/-! ## Classification of the tag -/

/-- C5 (amended): when `parseTag` returns a nil error on a tag, the tag has a third
component and the returned isPatch is true if and only if the base-10 value of that
component is greater than zero; and on every tag `vMAJOR.MINOR.PATCH` made of three
non-empty runs of digits, isPatch is true if and only if PATCH > 0 and the values of
the three components are at most `maxInt = 2^63 - 1` (so such a tag with PATCH > 0
gives true when its components fit `int`, and a patch component made of zeros gives
false). -/
theorem parseTag_isPatch_classification :
    (∀ tag : String, (parseTag tag).2.2.2 = none →
      (∃ a b c : List Char, isDigits a ∧ isDigits b ∧ isDigits c ∧
          tag.data = 'v' :: (a ++ '.' :: (b ++ '.' :: c))) ∧
        ∀ a b c : List Char, isDigits a → isDigits b → isDigits c →
          tag.data = 'v' :: (a ++ '.' :: (b ++ '.' :: c)) →
          ((parseTag tag).2.2.1 = true ↔ 0 < base10Value (String.mk c))) ∧
      ∀ MAJOR MINOR PATCH : String,
        isDigits MAJOR.data → isDigits MINOR.data → isDigits PATCH.data →
        ((parseTag ("v" ++ MAJOR ++ "." ++ MINOR ++ "." ++ PATCH)).2.2.1 = true ↔
          (base10Value MAJOR : Int) ≤ maxInt ∧ (base10Value MINOR : Int) ≤ maxInt ∧
            (base10Value PATCH : Int) ≤ maxInt ∧ 0 < base10Value PATCH) := by
  refine ⟨fun tag hok => parseTag_isPatch_iff tag hok, ?_⟩
  intro MAJOR MINOR PATCH hM hm hp
  have eM : decimalValue MAJOR.data = base10Value MAJOR := decimalValue_eq_base10Value _
  have em : decimalValue MINOR.data = base10Value MINOR := decimalValue_eq_base10Value _
  have ep : decimalValue PATCH.data = base10Value PATCH := decimalValue_eq_base10Value _
  obtain ⟨hiff, hval, hzero⟩ := parseTag_wellFormed MAJOR.data MINOR.data PATCH.data hM hm hp
  simp only [← tag_eq_mk, eM, em, ep] at hiff hval hzero
  by_cases hok : (parseTag ("v" ++ MAJOR ++ "." ++ MINOR ++ "." ++ PATCH)).2.2.2 = none
  · obtain ⟨h1, h2, h3⟩ := hiff.1 hok
    obtain ⟨-, -, v3⟩ := hval hok
    rw [v3]
    simp [h1, h2, h3]
  · obtain ⟨-, -, v3⟩ := hzero hok
    rw [v3]
    constructor
    · intro h
      exact absurd h (by decide)
    · rintro ⟨h1, h2, h3, -⟩
      exact absurd (hiff.2 ⟨h1, h2, h3⟩) hok

/-- Witness of C5 (amended): `v0.8.1` has isPatch = true and `v0.8.00` has
isPatch = false. -/
theorem parseTag_isPatch_classification_witness :
    (parseTag ("v" ++ "0" ++ "." ++ "8" ++ "." ++ "1")).2.2.1 = true ∧
      ¬ (parseTag ("v" ++ "0" ++ "." ++ "8" ++ "." ++ "00")).2.2.1 = true :=
  ⟨(parseTag_isPatch_classification.2 "0" "8" "1" (by decide) (by decide) (by decide)).2
      (by decide),
    fun h =>
      absurd
        ((parseTag_isPatch_classification.2 "0" "8" "00" (by decide) (by decide)
          (by decide)).1 h).2.2.2
        (by decide)⟩

/-- Counterexample to C5 as stated: `v1.2.99999999999999999999` is made of three
non-empty runs of digits and its patch component is greater than zero, yet `parseTag`
returns isPatch = false on it, with the error of a patch component that does not fit
`int`. -/
theorem parseTag_isPatch_counterexample :
    isDigits "1".data ∧ isDigits "2".data ∧ isDigits "99999999999999999999".data ∧
      0 < base10Value "99999999999999999999" ∧
      parseTag ("v" ++ "1" ++ "." ++ "2" ++ "." ++ "99999999999999999999") =
        (0, 0, false, some "invalid patch version: 99999999999999999999") := by
  decide

/-! ## Two runs in a row -/

/-- After a call of `writeMetadata` that returned no error, the file holds the text
that the encoder produced for the document; the other calls are unchanged. -/
theorem afterWrite_of_writeMetadata (sys : Sys) (path : String) (metadata : Metadata)
    (hwrite : writeMetadata sys path metadata = none) :
    ∃ sb, sys.encode metadata = .ok sb ∧
      (sys.afterWrite path metadata).readFile path = .ok sb ∧
      (sys.afterWrite path metadata).unmarshal = sys.unmarshal ∧
      (sys.afterWrite path metadata).join = sys.join := by
  unfold writeMetadata at hwrite
  cases he : sys.encode metadata with
  | error err => simp [he] at hwrite
  | ok sb =>
    rw [he] at hwrite
    simp only at hwrite
    refine ⟨sb, rfl, ?_, ?_, ?_⟩ <;> simp [Sys.afterWrite, he, hwrite]

/-- The load of the run that follows a successful run returns the document left by
that run, when the YAML decoder returns the saved document from the text that the
encoder produced for it. -/
theorem readMetadata_afterRun (tag contractFlag repoDir : String) (sys : Sys) (d : Metadata)
    (hread : readMetadata sys (sys.join repoDir "metadata.yaml") = (d, none))
    (hok : (main tag contractFlag repoDir sys).status = .success)
    (hyaml : ∀ saved data, lastWritten (main tag contractFlag repoDir sys).ops = some saved →
      sys.encode saved = .ok data → sys.unmarshal data = (saved, none)) :
    readMetadata (sys.afterRun (main tag contractFlag repoDir sys))
        ((sys.afterRun (main tag contractFlag repoDir sys)).join repoDir "metadata.yaml") =
      ((main tag contractFlag repoDir sys).resultDoc d, none) := by
  obtain ⟨major, minor, isPatch, hp, hskip⟩ :=
    main_success_cases tag contractFlag repoDir sys hok
  cases isPatch with
  | true =>
    rw [hskip rfl]
    exact hread
  | false =>
    have h1 := main_minorRelease tag contractFlag repoDir sys major minor d hp hread
    by_cases hex : releaseExists ⟨major, minor + 1, contractFlag⟩ d.ReleaseSeries = true
    · rw [if_pos hex] at h1
      rw [h1]
      exact hread
    · rw [if_neg hex] at h1
      rw [h1] at hok hyaml ⊢
      have hw : writeMetadata sys (sys.join repoDir "metadata.yaml")
          ⟨d.APIVersion, d.ReleaseSeries ++ [⟨major, minor + 1, contractFlag⟩]⟩ = none := by
        cases hw' : writeMetadata sys (sys.join repoDir "metadata.yaml")
          ⟨d.APIVersion, d.ReleaseSeries ++ [⟨major, minor + 1, contractFlag⟩]⟩ with
        | none => rfl
        | some err => simp [hw'] at hok
      obtain ⟨sb, he, hrf, hun, hj⟩ := afterWrite_of_writeMetadata sys _ _ hw
      have hy := hyaml _ sb rfl he
      simp only [Sys.afterRun, List.foldl_cons, List.foldl_nil, Run.resultDoc, lastWritten,
        Option.getD_some, Option.getD_none]
      rw [hj]
      simp only [readMetadata, hrf, hun, hy]
      rfl

/-- C7 (amended): when a run on a loaded document ends successfully and, in case it
saved a document, the YAML decoder returns that document from the text that the
encoder produced for it, the next run with the same tag, contract and directory, on
the file as the first run left it, loads the document left by the first run, ends
successfully, leaves that document as it is and makes no call of `writeMetadata`. -/
theorem main_second_run (tag contractFlag repoDir : String) (sys : Sys) (d : Metadata)
    (hread : readMetadata sys (sys.join repoDir "metadata.yaml") = (d, none))
    (hok : (main tag contractFlag repoDir sys).status = .success)
    (hyaml : ∀ saved data, lastWritten (main tag contractFlag repoDir sys).ops = some saved →
      sys.encode saved = .ok data → sys.unmarshal data = (saved, none)) :
    readMetadata (sys.afterRun (main tag contractFlag repoDir sys))
        ((sys.afterRun (main tag contractFlag repoDir sys)).join repoDir "metadata.yaml") =
        ((main tag contractFlag repoDir sys).resultDoc d, none) ∧
      (main tag contractFlag repoDir
        (sys.afterRun (main tag contractFlag repoDir sys))).status = .success ∧
      (main tag contractFlag repoDir
          (sys.afterRun (main tag contractFlag repoDir sys))).resultDoc
          ((main tag contractFlag repoDir sys).resultDoc d) =
        (main tag contractFlag repoDir sys).resultDoc d ∧
      ∀ path metadata, FileOp.write path metadata ∉
        (main tag contractFlag repoDir
          (sys.afterRun (main tag contractFlag repoDir sys))).ops := by
  have hread2 := readMetadata_afterRun tag contractFlag repoDir sys d hread hok hyaml
  exact ⟨hread2, main_idempotent tag contractFlag repoDir sys _ d hread hok hread2⟩

/-- Witness of C7 (amended): the tag `v0.8.0` run twice, first on the entries
`[{1, 7, "v1beta1"}]`, with a decoder that returns the saved document. -/
theorem main_second_run_witness :
    readMetadata
        ((Sys.scenario ⟨"v1", [⟨1, 7, "v1beta1"⟩]⟩
            (⟨"v1", [⟨1, 7, "v1beta1"⟩, ⟨0, 9, "v1beta1"⟩]⟩, none)).afterRun
          (main "v0.8.0" "v1beta1" "/repo"
            (Sys.scenario ⟨"v1", [⟨1, 7, "v1beta1"⟩]⟩
              (⟨"v1", [⟨1, 7, "v1beta1"⟩, ⟨0, 9, "v1beta1"⟩]⟩, none))))
        (((Sys.scenario ⟨"v1", [⟨1, 7, "v1beta1"⟩]⟩
            (⟨"v1", [⟨1, 7, "v1beta1"⟩, ⟨0, 9, "v1beta1"⟩]⟩, none)).afterRun
          (main "v0.8.0" "v1beta1" "/repo"
            (Sys.scenario ⟨"v1", [⟨1, 7, "v1beta1"⟩]⟩
              (⟨"v1", [⟨1, 7, "v1beta1"⟩, ⟨0, 9, "v1beta1"⟩]⟩, none)))).join
          "/repo" "metadata.yaml") =
        ((main "v0.8.0" "v1beta1" "/repo"
            (Sys.scenario ⟨"v1", [⟨1, 7, "v1beta1"⟩]⟩
              (⟨"v1", [⟨1, 7, "v1beta1"⟩, ⟨0, 9, "v1beta1"⟩]⟩, none))).resultDoc
            ⟨"v1", [⟨1, 7, "v1beta1"⟩]⟩, none) ∧
      (main "v0.8.0" "v1beta1" "/repo"
        ((Sys.scenario ⟨"v1", [⟨1, 7, "v1beta1"⟩]⟩
            (⟨"v1", [⟨1, 7, "v1beta1"⟩, ⟨0, 9, "v1beta1"⟩]⟩, none)).afterRun
          (main "v0.8.0" "v1beta1" "/repo"
            (Sys.scenario ⟨"v1", [⟨1, 7, "v1beta1"⟩]⟩
              (⟨"v1", [⟨1, 7, "v1beta1"⟩, ⟨0, 9, "v1beta1"⟩]⟩, none))))).status =
        .success ∧
      (main "v0.8.0" "v1beta1" "/repo"
          ((Sys.scenario ⟨"v1", [⟨1, 7, "v1beta1"⟩]⟩
              (⟨"v1", [⟨1, 7, "v1beta1"⟩, ⟨0, 9, "v1beta1"⟩]⟩, none)).afterRun
            (main "v0.8.0" "v1beta1" "/repo"
              (Sys.scenario ⟨"v1", [⟨1, 7, "v1beta1"⟩]⟩
                (⟨"v1", [⟨1, 7, "v1beta1"⟩, ⟨0, 9, "v1beta1"⟩]⟩, none))))).resultDoc
          ((main "v0.8.0" "v1beta1" "/repo"
            (Sys.scenario ⟨"v1", [⟨1, 7, "v1beta1"⟩]⟩
              (⟨"v1", [⟨1, 7, "v1beta1"⟩, ⟨0, 9, "v1beta1"⟩]⟩, none))).resultDoc
            ⟨"v1", [⟨1, 7, "v1beta1"⟩]⟩) =
        (main "v0.8.0" "v1beta1" "/repo"
          (Sys.scenario ⟨"v1", [⟨1, 7, "v1beta1"⟩]⟩
            (⟨"v1", [⟨1, 7, "v1beta1"⟩, ⟨0, 9, "v1beta1"⟩]⟩, none))).resultDoc
          ⟨"v1", [⟨1, 7, "v1beta1"⟩]⟩ ∧
      ∀ path metadata, FileOp.write path metadata ∉
        (main "v0.8.0" "v1beta1" "/repo"
          ((Sys.scenario ⟨"v1", [⟨1, 7, "v1beta1"⟩]⟩
              (⟨"v1", [⟨1, 7, "v1beta1"⟩, ⟨0, 9, "v1beta1"⟩]⟩, none)).afterRun
            (main "v0.8.0" "v1beta1" "/repo"
              (Sys.scenario ⟨"v1", [⟨1, 7, "v1beta1"⟩]⟩
                (⟨"v1", [⟨1, 7, "v1beta1"⟩, ⟨0, 9, "v1beta1"⟩]⟩, none))))).ops :=
  main_second_run "v0.8.0" "v1beta1" "/repo"
    (Sys.scenario ⟨"v1", [⟨1, 7, "v1beta1"⟩]⟩
      (⟨"v1", [⟨1, 7, "v1beta1"⟩, ⟨0, 9, "v1beta1"⟩]⟩, none))
    ⟨"v1", [⟨1, 7, "v1beta1"⟩]⟩ (by decide) (by decide)
    (by
      intro saved data h1 h2
      have e : lastWritten (main "v0.8.0" "v1beta1" "/repo"
          (Sys.scenario ⟨"v1", [⟨1, 7, "v1beta1"⟩]⟩
            (⟨"v1", [⟨1, 7, "v1beta1"⟩, ⟨0, 9, "v1beta1"⟩]⟩, none))).ops =
          some ⟨"v1", [⟨1, 7, "v1beta1"⟩, ⟨0, 9, "v1beta1"⟩]⟩ := by decide
      rw [e] at h1
      have e1 := Option.some.inj h1
      have e2 : "saved" = data := Except.ok.inj h2
      rw [← e1, ← e2]
      decide)

/-- The two runs on the tag `v0.8.0` evaluated, with a decoder that returns the saved
document: the first run loads `[{1, 7, "v1beta1"}]` and saves
`[{1, 7, "v1beta1"}, {0, 9, "v1beta1"}]`, and the second run only loads. -/
theorem main_second_run_scenario :
    main "v0.8.0" "v1beta1" "/repo"
        (Sys.scenario ⟨"v1", [⟨1, 7, "v1beta1"⟩]⟩
          (⟨"v1", [⟨1, 7, "v1beta1"⟩, ⟨0, 9, "v1beta1"⟩]⟩, none)) =
        { status := .success
          ops := [.read "/repo/metadata.yaml",
            .write "/repo/metadata.yaml"
              ⟨"v1", [⟨1, 7, "v1beta1"⟩, ⟨0, 9, "v1beta1"⟩]⟩] } ∧
      main "v0.8.0" "v1beta1" "/repo"
        ((Sys.scenario ⟨"v1", [⟨1, 7, "v1beta1"⟩]⟩
            (⟨"v1", [⟨1, 7, "v1beta1"⟩, ⟨0, 9, "v1beta1"⟩]⟩, none)).afterRun
          (main "v0.8.0" "v1beta1" "/repo"
            (Sys.scenario ⟨"v1", [⟨1, 7, "v1beta1"⟩]⟩
              (⟨"v1", [⟨1, 7, "v1beta1"⟩, ⟨0, 9, "v1beta1"⟩]⟩, none)))) =
        { status := .success, ops := [.read "/repo/metadata.yaml"] } := by
  decide

/-- Counterexample to C7 as stated: the contract label is a tab, a bar and a line
feed, and the YAML decoder returns an error on the text that the encoder wrote for
the saved document. The first run, on the tag `v0.8.0` and the loaded entries
`[{1, 7, "v1beta1"}]`, ends successfully and saves the document with the new entry;
the second run, with the same tag and contract, ends in failure at the load: it does
not end successfully and never reaches the entry that the first run appended. -/
theorem main_second_run_counterexample :
    readMetadata
        (Sys.scenario ⟨"v1", [⟨1, 7, "v1beta1"⟩]⟩
          (Metadata.zero, some "yaml: decoding error"))
        "/repo/metadata.yaml" = (⟨"v1", [⟨1, 7, "v1beta1"⟩]⟩, none) ∧
      main "v0.8.0" "\t|\n" "/repo"
        (Sys.scenario ⟨"v1", [⟨1, 7, "v1beta1"⟩]⟩
          (Metadata.zero, some "yaml: decoding error")) =
        { status := .success
          ops := [.read "/repo/metadata.yaml",
            .write "/repo/metadata.yaml"
              ⟨"v1", [⟨1, 7, "v1beta1"⟩, ⟨0, 9, "\t|\n"⟩]⟩] } ∧
      main "v0.8.0" "\t|\n" "/repo"
        ((Sys.scenario ⟨"v1", [⟨1, 7, "v1beta1"⟩]⟩
            (Metadata.zero, some "yaml: decoding error")).afterRun
          (main "v0.8.0" "\t|\n" "/repo"
            (Sys.scenario ⟨"v1", [⟨1, 7, "v1beta1"⟩]⟩
              (Metadata.zero, some "yaml: decoding error")))) =
        { status := .failure "Failed to read metadata file: yaml: decoding error"
          ops := [.read "/repo/metadata.yaml"] } ∧
      (main "v0.8.0" "\t|\n" "/repo"
        ((Sys.scenario ⟨"v1", [⟨1, 7, "v1beta1"⟩]⟩
            (Metadata.zero, some "yaml: decoding error")).afterRun
          (main "v0.8.0" "\t|\n" "/repo"
            (Sys.scenario ⟨"v1", [⟨1, 7, "v1beta1"⟩]⟩
              (Metadata.zero, some "yaml: decoding error"))))).status ≠ .success := by
  decide

end MetadataUpdate
